import Mathlib

/-!
A verification of the request/response pipeline of the Terraform code
reviewer agent (FastAPI service in app/api/routes/stateless_runs.py with
models in app/models/models.py).

The development has two halves.

The first half is an executable model of the exact JSON serialization the
handler applies to its review comments: `json.dumps` with default options
(separators ", " and ": ", ensure_ascii, lowercase hex escapes, surrogate
pairs for astral code points) applied to the list
`[comment.model_dump() for comment in response.issues if comment.line_number != 0]`
(stateless_runs.py lines 192-200), together with a parser for the canonical
grammar this encoder emits - the shapes on which the specification applies
`json.loads`. The round-trip theorems (`parseStringBody_escapeList`,
`parseIntJson_dumpInt`, `parseComment_dumpComment`,
`parseComments_dumpComments`, `jsonLoadsComments_dump`) establish that
parsing an encoded comment list recovers it exactly, for all field values,
including escaped quotes, control characters and non-ASCII text.

The second half embeds the data model and the handler
`run_stateless_runs_post` itself: envelope decoding, pydantic validation of
`ReviewRequest`, prompt-payload assembly (`codeReviewInput` plus
`get_model_dump_with_metadata`), the line-0 comment filter and response
construction. Stateful or exception-based control flow is embedded as an
`Except HttpError` result; the external LLM chain is a function parameter,
so theorems quantifying over it capture which outcomes are independent of
the LLM. The claim theorems are at the end of the file.
-/

/-- Value of one hex digit character, as accepted by a JSON parser
(json.loads accepts both cases; json.dumps emits lowercase). -/
def fromHexDigit (c : Char) : Option Nat :=
  if '0' ≤ c ∧ c ≤ '9' then some (c.toNat - 48)
  else if 'a' ≤ c ∧ c ≤ 'f' then some (c.toNat - 87)
  else if 'A' ≤ c ∧ c ≤ 'F' then some (c.toNat - 55)
  else none

/-- Lowercase hex digit, as CPython json.encoder emits in \uXXXX escapes. -/
def hexDigitChar (n : Nat) : Char :=
  if n < 10 then Char.ofNat (48 + n) else Char.ofNat (87 + n)

def parseHex4 (a b c d : Char) : Option Nat := do
  let x1 ← fromHexDigit a
  let x2 ← fromHexDigit b
  let x3 ← fromHexDigit c
  let x4 ← fromHexDigit d
  pure (((x1 * 16 + x2) * 16 + x3) * 16 + x4)

def toHex4 (n : Nat) : List Char :=
  [hexDigitChar (n / 4096 % 16), hexDigitChar (n / 256 % 16),
   hexDigitChar (n / 16 % 16), hexDigitChar (n % 16)]

/-- Prepend a decoded character to a parse result. -/
def pcons (c : Char) (p : List Char × List Char) : List Char × List Char :=
  (c :: p.1, p.2)

/-- Decode the second half of a surrogate pair: expects a literal backslash,
the letter u and four hex digits encoding a low surrogate, as json.loads
does when it has just read a high surrogate. -/
def decodeLowSurrogate (v : Nat) : List Char → Option (Char × List Char)
  | s1 :: s2 :: a :: b :: c :: d :: r =>
    if s1 = '\\' ∧ s2 = 'u' then
      (parseHex4 a b c d).bind (fun w =>
        if 0xDC00 ≤ w ∧ w < 0xE000 then
          some (Char.ofNat (0x10000 + (v - 0xD800) * 0x400 + (w - 0xDC00)), r)
        else none)
    else none
  | _ => none

/-- Interpret the 16-bit value of a \uXXXX escape: a high surrogate must be
followed by a low surrogate (the CPython decoder then combines the pair), a
lone low surrogate is rejected (our Char cannot represent it; the encoder
under verification never emits one), anything else is a BMP scalar. -/
def decodeUVal (v : Nat) (r : List Char) : Option (Char × List Char) :=
  if 0xD800 ≤ v ∧ v < 0xDC00 then decodeLowSurrogate v r
  else if 0xDC00 ≤ v ∧ v < 0xE000 then none
  else some (Char.ofNat v, r)

/-- Decode a \uXXXX escape body: four hex digits and, for surrogates, a
second escape. -/
def decodeU : List Char → Option (Char × List Char)
  | a :: b :: c :: d :: r => (parseHex4 a b c d).bind (fun v => decodeUVal v r)
  | _ => none

/-- Decode one backslash escape of a JSON string, as json.loads does: the
short escapes of CPython json.decoder.BACKSLASH plus \uXXXX. -/
def unescape1 : List Char → Option (Char × List Char)
  | [] => none
  | e :: rest =>
    if e = '"' then some ('"', rest)
    else if e = '\\' then some ('\\', rest)
    else if e = '/' then some ('/', rest)
    else if e = 'b' then some ('\x08', rest)
    else if e = 't' then some ('\t', rest)
    else if e = 'n' then some ('\n', rest)
    else if e = 'f' then some ('\x0c', rest)
    else if e = 'r' then some ('\x0d', rest)
    else if e = 'u' then decodeU rest
    else none

/-- Parse the body of a JSON string up to the closing quote, decoding
escapes. The fuel argument only bounds the recursion; one unit is spent per
decoded character, so any fuel above the input length is enough. -/
def parseStringBody : Nat → List Char → Option (List Char × List Char)
  | _, [] => none
  | 0, _ :: _ => none
  | fuel + 1, c :: rest =>
    if c = '"' then some ([], rest)
    else if c = '\\' then
      match unescape1 rest with
      | none => none
      | some (ch, rest2) => (parseStringBody fuel rest2).map (pcons ch)
    else (parseStringBody fuel rest).map (pcons c)

/-- Escape one character the way CPython json.encoder py_encode_basestring_ascii
does with the default ensure_ascii=True: double quote and backslash get a
backslash escape, the five short control escapes follow, printable ASCII is
kept, everything else becomes \uXXXX, with a surrogate pair for code points
beyond the BMP. -/
def escapeChar (c : Char) : List Char :=
  if c = '"' then ['\\', '"']
  else if c = '\\' then ['\\', '\\']
  else if c = '\x08' then ['\\', 'b']
  else if c = '\t' then ['\\', 't']
  else if c = '\n' then ['\\', 'n']
  else if c = '\x0c' then ['\\', 'f']
  else if c = '\x0d' then ['\\', 'r']
  else if 0x20 ≤ c.toNat ∧ c.toNat ≤ 0x7e then [c]
  else if c.toNat < 0x10000 then '\\' :: 'u' :: toHex4 c.toNat
  else ('\\' :: 'u' :: toHex4 (0xD800 + (c.toNat - 0x10000) / 0x400)) ++
       ('\\' :: 'u' :: toHex4 (0xDC00 + (c.toNat - 0x10000) % 0x400))

/-- Escape a whole string (as a character list). -/
def escapeList : List Char → List Char
  | [] => []
  | c :: cs => escapeChar c ++ escapeList cs

/-- Decimal digits of a natural number, most significant first; fuel-based
so that it is structural (fuel above the number itself is enough, as each
step divides by ten). -/
def natDigitsAux : Nat → Nat → List Char
  | 0, _ => []
  | fuel + 1, n =>
    if n < 10 then [Char.ofNat (48 + n)]
    else natDigitsAux fuel (n / 10) ++ [Char.ofNat (48 + n % 10)]

/-- Decimal digits of a natural number, as Python repr of an int emits them. -/
def natDigits (n : Nat) : List Char := natDigitsAux (n + 1) n

/-- json.dumps of a Python int: optional minus sign and decimal digits. -/
def dumpInt (i : Int) : List Char :=
  if i < 0 then '-' :: natDigits (-i).toNat else natDigits i.toNat

/-- ASCII decimal digit test. -/
def isDigitChar (c : Char) : Bool := 48 ≤ c.toNat && c.toNat ≤ 57

/-- Split the maximal leading run of decimal digits from the input. -/
def parseDigits : List Char → List Char × List Char
  | [] => ([], [])
  | c :: cs =>
    if isDigitChar c then
      let p := parseDigits cs
      (c :: p.1, p.2)
    else ([], c :: cs)

/-- Value of a digit run. -/
def digitsToNat (ds : List Char) : Nat :=
  ds.foldl (fun a c => 10 * a + (c.toNat - 48)) 0

/-- Parse a nonempty run of decimal digits. -/
def parseNat (l : List Char) : Option (Nat × List Char) :=
  let p := parseDigits l
  if p.1 = [] then none else some (digitsToNat p.1, p.2)

/-- Parse a JSON integer: optional minus sign and digits, stopping at the
first non-digit. -/
def parseIntJson : List Char → Option (Int × List Char)
  | [] => none
  | c :: rest =>
    if c = '-' then (parseNat rest).map (fun p => (-(p.1 : Int), p.2))
    else (parseNat (c :: rest)).map (fun p => ((p.1 : Int), p.2))

def noDigitHead : List Char → Prop
  | [] => True
  | c :: _ => isDigitChar c = false

/-- ReviewComment of app/models/models.py lines 34-38: filename,
line_number, comment, status. line_number is a Python int, so Int. -/
structure ReviewComment where
  filename : String
  line_number : Int
  comment : String
  status : String
  deriving DecidableEq

/-- Require a literal character sequence at the head of the input and
return the rest. -/
def expectChars : List Char → List Char → Option (List Char)
  | [], input => some input
  | _ :: _, [] => none
  | p :: ps, c :: cs => if c = p then expectChars ps cs else none

/-- json.dumps of a Python str: quotes around the escaped character list. -/
def dumpStr (s : String) : List Char := '"' :: (escapeList s.toList ++ ['"'])

/-- Parse a JSON string literal: an opening quote, then the body. -/
def parseJString : List Char → Option (List Char × List Char)
  | [] => none
  | c :: rest => if c = '"' then parseStringBody rest.length rest else none

/-- The literal pieces of json.dumps of a ReviewComment.model_dump() dict:
pydantic model_dump preserves field declaration order (filename,
line_number, comment, status), and json.dumps with default separators
renders exactly these key/punctuation runs between the values. -/
def litObjOpen : List Char := ['{', '"', 'f', 'i', 'l', 'e', 'n', 'a', 'm', 'e', '"', ':', ' ']

def litLineNumber : List Char :=
  [',', ' ', '"', 'l', 'i', 'n', 'e', '_', 'n', 'u', 'm', 'b', 'e', 'r', '"', ':', ' ']

def litComment : List Char := [',', ' ', '"', 'c', 'o', 'm', 'm', 'e', 'n', 't', '"', ':', ' ']

def litStatus : List Char := [',', ' ', '"', 's', 't', 'a', 't', 'u', 's', '"', ':', ' ']

/-- json.dumps of one comment dict, as embedded in the handler response
content (stateless_runs.py lines 192-200). -/
def dumpComment (c : ReviewComment) : List Char :=
  litObjOpen ++ dumpStr c.filename ++
  litLineNumber ++ dumpInt c.line_number ++
  litComment ++ dumpStr c.comment ++
  litStatus ++ dumpStr c.status ++ ['}']

/-- Parse one comment object of the canonical grammar dumpComment emits.
json.loads agrees with this parser on every string dumpComment produces,
which are the only inputs the round-trip claim applies it to. -/
def parseComment (l : List Char) : Option (ReviewComment × List Char) :=
  (expectChars litObjOpen l).bind fun l1 =>
  (parseJString l1).bind fun p1 =>
  (expectChars litLineNumber p1.2).bind fun l3 =>
  (parseIntJson l3).bind fun p2 =>
  (expectChars litComment p2.2).bind fun l5 =>
  (parseJString l5).bind fun p3 =>
  (expectChars litStatus p3.2).bind fun l7 =>
  (parseJString l7).bind fun p4 =>
  (expectChars ['}'] p4.2).bind fun l9 =>
  some (⟨String.mk p1.1, p2.1, String.mk p3.1, String.mk p4.1⟩, l9)

/-- The comma-space separated items of json.dumps of a list. -/
def dumpItems : List ReviewComment → List Char
  | [] => []
  | [c] => dumpComment c
  | c :: c2 :: cs => dumpComment c ++ ',' :: ' ' :: dumpItems (c2 :: cs)

/-- json.dumps of the filtered comment-dict list: the exact content string
of the response message. json.dumps([]) is the two-character string with
an opening and a closing square bracket. -/
def dumpComments (cs : List ReviewComment) : List Char :=
  '[' :: (dumpItems cs ++ [']'])

/-- Parse the items of a nonempty comment list; fuel is one unit per item,
so the input length is always enough. -/
def parseCommentsAux : Nat → List Char → Option (List ReviewComment × List Char)
  | 0, _ => none
  | fuel + 1, l =>
    (parseComment l).bind fun p =>
    match p.2 with
    | [] => none
    | r :: rest2 =>
      if r = ']' then some ([p.1], rest2)
      else if r = ',' then
        match rest2 with
        | [] => none
        | sp :: rest3 =>
          if sp = ' ' then (parseCommentsAux fuel rest3).map (fun q => (p.1 :: q.1, q.2))
          else none
      else none

/-- After the opening bracket: either an immediate closing bracket (empty
list) or the items. -/
def parseCommentsBody : List Char → Option (List ReviewComment × List Char)
  | [] => none
  | r :: rest2 =>
    if r = ']' then some ([], rest2)
    else parseCommentsAux (r :: rest2).length (r :: rest2)

/-- Parse a JSON array of comment objects in the canonical dumpComments
grammar. -/
def parseComments : List Char → Option (List ReviewComment × List Char)
  | [] => none
  | c :: rest => if c = '[' then parseCommentsBody rest else none

/-- json.loads of a response content string, restricted to the canonical
grammar of dumpComments: the whole input must be consumed, as json.loads
rejects trailing data. -/
def jsonLoadsComments (s : String) : Option (List ReviewComment) :=
  match parseComments s.toList with
  | some (cs, []) => some cs
  | _ => none

/-- The three Field description strings of codeReviewInput
(stateless_runs.py lines 57-79), transcribed verbatim; they travel into the
prompt payload via model_fields metadata. -/
def filesDescription : String :=
  "receive all the Terraform files from the user in the \"FILES\" list.."

def changesDescription : String :=
  "\n        List of code changes across Terraform files. The changes have the following format:\n            - filename: the name of the file where the change was done\n            - start_line: the line number where the change was added\n            - changed_code: the code that was removed/added after the start line, there's a + or - sign at the beginning of every change line, it indicates if it was added or removed, ignore this sign.\n            - status: indicates if the changed_code was added/removed\n            - Changes with \"removed\" status mean that the code in that change was deleted from the codebase, it's not part of the code anymore.\n            - Changes with \"added\" status mean that the code in that change was added the codebase.\n            - Always focus on whether a change was added or removed from the codebase. If it was removed then that code is not part of the codebase anymore.\n            - Sometimes the changes are in pairs, one change with a 'removed' status and one with 'added', but they belong together, even when their line numbers are far apart.\n            Identify these pairs and DO NOT add the same comment to the removed and added part twice!\n            "

def staticAnalyzerOutputDescription : String :=
  "\n        - A list of multiple static code analyzers (tflint, tfsec, etc.) on the new code.\n        - The static_analyzer_output could be useful for understanding the potential issues introduced by the user, like missing references, undefined or unused variables etc.\n        - The static_analyzer_output could have issues which are not related to the current code changes, you MUST ignore these issues as they weren't introduced by this PR.\n        "

/-- A JSON value, the result of json.loads. JSON numbers are embedded as
Int: the review pipeline only meets integer numbers (line numbers), and no
claim depends on float payload values. -/
inductive Json where
  | null
  | bool (b : Bool)
  | num (n : Int)
  | str (s : String)
  | arr (elems : List Json)
  | obj (fields : List (String × Json))

/-- A decoded JSON object / Python dict with string keys, in insertion
order as Python dicts preserve it. -/
abbrev JDict := List (String × Json)

/-- Python dict key lookup on the association-list embedding (keys of a
decoded JSON object are unique, so first match is the value). -/
def alookup {α : Type} (k : String) : List (String × α) → Option α
  | [] => none
  | (k2, v) :: rest => if k2 = k then some v else alookup k rest

/-- ReviewRequest of app/models/models.py lines 45-50: context_files and
changes are List[Dict[str, Any]], static_analyzer_output is Optional[str]
(a string or None - not a list; several claims turn on this). -/
structure ReviewRequest where
  context_files : List JDict
  changes : List JDict
  static_analyzer_output : Option String

/-- Pydantic validation of a Dict[str, Any] field value: the JSON value
must be an object. -/
def validateDict : Json → Option JDict
  | .obj f => some f
  | _ => none

/-- Element-wise validation of a list of dicts. -/
def validateDictList : List Json → Option (List JDict)
  | [] => some []
  | j :: js =>
    match validateDict j with
    | none => none
    | some d => (validateDictList js).map (fun ds => d :: ds)

/-- Pydantic validation of List[Dict[str, Any]]: a JSON array of objects. -/
def validateListDict : Json → Option (List JDict)
  | .arr xs => validateDictList xs
  | _ => none

/-- Pydantic v2 validation of Optional[str]: a string or null; no coercion
from lists, numbers or booleans. -/
def validateOptStr : Json → Option (Option String)
  | .str s => some (some s)
  | .null => some none
  | _ => none

/-- ReviewRequest.model_validate (stateless_runs.py line 150): the payload
must be a dict with the three required fields, extra keys are ignored
(pydantic default), each field validated per its annotation. The error
string stands for the pydantic ValidationError text interpolated into the
422 detail. -/
def reviewRequestModelValidate (j : Json) : Except String ReviewRequest :=
  match j with
  | .obj fields =>
    match alookup "context_files" fields with
    | none => .error "context_files: Field required"
    | some cf =>
      match validateListDict cf with
      | none => .error "context_files: Input should be a valid list of dictionaries"
      | some cfs =>
        match alookup "changes" fields with
        | none => .error "changes: Field required"
        | some ch =>
          match validateListDict ch with
          | none => .error "changes: Input should be a valid list of dictionaries"
          | some chs =>
            match alookup "static_analyzer_output" fields with
            | none => .error "static_analyzer_output: Field required"
            | some sa =>
              match validateOptStr sa with
              | none => .error "static_analyzer_output: Input should be a valid string"
              | some s => .ok ⟨cfs, chs, s⟩
  | _ => .error "Input should be a valid dictionary"

/-- A message content string, embedded by its json.loads outcome: `jsonVal j`
is content that parses as the JSON value j, `notJson` is content on which
json.loads raises JSONDecodeError. -/
inductive ContentVal where
  | jsonVal (j : Json)
  | notJson (raw : String)

/-- Message of app/models/models.py lines 226-233: a role and a content
string (here carried as its parse outcome). -/
structure Message where
  role : String
  content : ContentVal

/-- The envelope input field as the handler sees it (stateless_runs.py line
137): either a mapping or something that fails the isinstance(dict) check.
On /runs the RunCreateStateless schema already forces a mapping; on the ACP
/runs/wait route the field is duck-typed, so both cases are kept. -/
inductive InputVal where
  | mapping (entries : List (String × List Message))
  | nonMapping

/-- RunCreateStateless of app/models/models.py lines 236-288, restricted to
the fields the handler reads: agent_id (Optional[str]), input, model
(required str), metadata (Optional[Dict[str, Any]]), route (required str). -/
structure RunCreateStateless where
  agent_id : Option String
  input : InputVal
  model : String
  metadata : Option JDict
  route : String

/-- One message of the response envelope output (a plain role/content dict
built at stateless_runs.py lines 198-202). -/
structure AssistantMessage where
  role : String
  content : String

/-- ReviewResponse of app/models/models.py lines 53-59, with output in the
only shape the handler builds: a messages key holding a message list. -/
structure ReviewResponse where
  agent_id : String
  output : List (String × List AssistantMessage)
  model : String
  metadata : JDict

/-- ReviewComments of app/models/models.py lines 41-42: the structured LLM
output. -/
structure ReviewComments where
  issues : List ReviewComment

/-- codeReviewInput of stateless_runs.py lines 57-79: files
(Optional[list[dict]]), changes (list[dict]) and static_analyzer_output
(list[str]), constructed at line 171 from the validated ReviewRequest with
the analyzer output wrapped in a singleton list. -/
structure CodeReviewInput where
  files : List JDict
  changes : List JDict
  static_analyzer_output : List String

/-- get_model_dump_with_metadata of stateless_runs.py lines 98-110: for
each field, a dict under the field name holding f"{field_name}value" (no
underscore) and f"{field_name}_description" from the Field metadata. Its
items() sequence is what chain.invoke receives (line 176). -/
def getModelDumpWithMetadata (cr : CodeReviewInput) : List (String × JDict) :=
  [("files",
     [("filesvalue", Json.arr (cr.files.map Json.obj)),
      ("files_description", Json.str filesDescription)]),
   ("changes",
     [("changesvalue", Json.arr (cr.changes.map Json.obj)),
      ("changes_description", Json.str changesDescription)]),
   ("static_analyzer_output",
     [("static_analyzer_outputvalue", Json.arr (cr.static_analyzer_output.map Json.str)),
      ("static_analyzer_output_description", Json.str staticAnalyzerOutputDescription)])]

/-- Lines 137-143: the isinstance/membership test and indexing
body.input["messages"]. -/
def inputMessages : InputVal → Option (List Message)
  | .mapping entries => alookup "messages" entries
  | .nonMapping => none

/-- An HTTP error response: the status code of the raised HTTPException and
its detail string. -/
structure HttpError where
  statusCode : Nat
  detail : String
  deriving DecidableEq

/-- The 422 detail string of stateless_runs.py line 142. -/
def malformedInputDetail : String :=
  "Invalid input format: 'messages' field is missing or input is not a dictionary."

/-- Stands for the IndexError that messages[0] raises on an empty list
(line 144); it reaches the caller through the generic except branch as a
500 (lines 183-189). -/
def indexErrorDetail : String := "IndexError: list index out of range"

/-- Stands for the JSONDecodeError str(exc) of json.loads (line 146) as
embedded in the 500 detail by the generic except branch; the exact CPython
message text is environment detail no claim depends on. -/
def jsonDecodeErrorDetail (raw : String) : String :=
  "json.decoder.JSONDecodeError while parsing: " ++ raw

/-- Stands for the pydantic ValidationError raised when codeReviewInput
receives [None] for its list[str] field (line 171-172 with a null
static_analyzer_output), again surfacing as a 500. -/
def codeReviewInputValidationDetail : String :=
  "ValidationError: static_analyzer_output list item is not a string"

/-- Lines 137-159 of run_stateless_runs_post: messages extraction (422 on
failure), first_message indexing (IndexError to 500 on an empty list),
json.loads (JSONDecodeError to 500 - only ValidationError is converted to
422), and ReviewRequest.model_validate (422 with the validation detail).
The commented-out emptiness check of lines 161-165 is deliberately absent. -/
def decodeAndValidate (body : RunCreateStateless) : Except HttpError ReviewRequest :=
  match inputMessages body.input with
  | none => .error ⟨422, malformedInputDetail⟩
  | some msgs =>
    match msgs with
    | [] => .error ⟨500, indexErrorDetail⟩
    | first :: _ =>
      match first.content with
      | .notJson raw => .error ⟨500, jsonDecodeErrorDetail raw⟩
      | .jsonVal j =>
        match reviewRequestModelValidate j with
        | .error e => .error ⟨422, "Validation failed: " ++ e⟩
        | .ok rr => .ok rr

/-- The guard of the response comprehension at lines 192-194: keep comments
whose line_number != 0, in order. The comprehension then model_dumps each
kept comment; that serialization step is dumpComments. -/
def filterComments : List ReviewComment → List ReviewComment
  | [] => []
  | c :: cs => if c.line_number != 0 then c :: filterComments cs else filterComments cs

/-- Python `x or default` on an optional string: None and the empty string
are falsy. -/
def pyOrOptStr (v : Option String) (default : String) : String :=
  match v with
  | none => default
  | some s => if s = "" then default else s

/-- Python `x or default` on a required string: the empty string is falsy. -/
def pyOrStr (s default : String) : String := if s = "" then default else s

/-- Line 204-208: body.metadata.get("id", "default-id") if body.metadata
else "default-id" - an absent or empty metadata dict is falsy. -/
def metaIdValue : Option JDict → Json
  | none => .str "default-id"
  | some d =>
    if d.isEmpty then .str "default-id"
    else
      match alookup "id" d with
      | none => .str "default-id"
      | some v => v

/-- The ReviewResponse construction of lines 196-209: defaulted agent_id
and model, a single assistant message whose content is
json.dumps(filtered_comments), and the metadata id. -/
def encodeReviewResponse (body : RunCreateStateless) (issues : List ReviewComment) :
    ReviewResponse :=
  { agent_id := pyOrOptStr body.agent_id "default-agent"
    output := [("messages",
      [{ role := "assistant", content := String.mk (dumpComments (filterComments issues)) }])]
    model := pyOrStr body.model "gpt-4o"
    metadata := [("id", metaIdValue body.metadata)] }

/-- The [review_request.static_analyzer_output] argument of line 172:
a string wraps into a singleton list[str]; None makes the codeReviewInput
constructor raise, surfacing as a 500 through the generic except branch. -/
def saoAsList (rr : ReviewRequest) : Except HttpError (List String) :=
  match rr.static_analyzer_output with
  | none => .error ⟨500, codeReviewInputValidationDetail⟩
  | some s => .ok [s]

/-- run_stateless_runs_post of stateless_runs.py lines 123-213, with the
LLM chain as an explicit parameter. Exceptions are embedded as an error
result; a theorem that fixes the error for every chain shows the LLM is
not reached. The /runs/wait handler (lines 229-305) shares this decode,
assemble, filter and encode logic. -/
def run_stateless_runs_post (chain : List (String × JDict) → ReviewComments)
    (body : RunCreateStateless) : Except HttpError ReviewResponse :=
  match decodeAndValidate body with
  | .error e => .error e
  | .ok rr =>
    match saoAsList rr with
    | .error e => .error e
    | .ok sl =>
      .ok (encodeReviewResponse body
        (chain (getModelDumpWithMetadata ⟨rr.context_files, rr.changes, sl⟩)).issues)

/-- Read output.messages[0].content back out of a response envelope, as the
round-trip property of the specification does. -/
def extractFirstContent (r : ReviewResponse) : Option String :=
  match alookup "messages" r.output with
  | none => none
  | some [] => none
  | some (m :: _) => some m.content

/-- The string needle occurs literally (as a contiguous substring) in hay. -/
def strOccurs (needle hay : String) : Prop :=
  ∃ a b : List Char, hay.toList = a ++ needle.toList ++ b

/-- The string s occurs literally somewhere in a JSON value: inside a
string leaf, an array element, an object key or an object value. Used to
state that the assembled prompt payload literally contains an input
string. -/
inductive Json.HasString (s : String) : Json → Prop
  | str_leaf (t : String) (h : strOccurs s t) : Json.HasString s (.str t)
  | in_arr {xs : List Json} {j : Json} (hj : j ∈ xs) (h : Json.HasString s j) :
      Json.HasString s (.arr xs)
  | obj_key {fs : JDict} {k : String} {v : Json} (hkv : (k, v) ∈ fs) (h : strOccurs s k) :
      Json.HasString s (.obj fs)
  | obj_val {fs : JDict} {k : String} {v : Json} (hkv : (k, v) ∈ fs)
      (h : Json.HasString s v) : Json.HasString s (.obj fs)

/-- The string occurs somewhere in the assembled payload mapping. -/
def payloadHasString (p : List (String × JDict)) (s : String) : Prop :=
  ∃ kv ∈ p, Json.HasString s (Json.obj kv.2)

/-- The JSON document of a review request: context_files and changes as
arrays of objects and the static_analyzer_output value. -/
def reviewRequestJson (ctx chg : List JDict) (sao : Json) : Json :=
  .obj [("context_files", .arr (ctx.map .obj)),
        ("changes", .arr (chg.map .obj)),
        ("static_analyzer_output", sao)]

/-- A well-formed /runs envelope whose first message content is the JSON
serialization of the given review request data. -/
def mkReviewBody (ctx chg : List JDict) (sao : Json) : RunCreateStateless :=
  { agent_id := some "remote_agent"
    input := .mapping [("messages", [⟨"user", .jsonVal (reviewRequestJson ctx chg sao)⟩])]
    model := "gpt-4o"
    metadata := some [("id", .str "req-1")]
    route := "/api/v1/runs" }

/-- A stub LLM chain returning one fixed anchored comment; used to show
which handler outcomes do depend on the chain. -/
def constChain1 : List (String × JDict) → ReviewComments :=
  fun _ => ⟨[⟨"s.tf", 4, "hard-coded acl", "added"⟩]⟩

def testBody : RunCreateStateless :=
  { agent_id := some "test-agent"
    input := .mapping [("messages", [⟨"user", .jsonVal (reviewRequestJson [] [] (.str "w"))⟩])]
    model := "gpt-4"
    metadata := some [("id", .str "req-1")]
    route := "/api/v1/runs" }

def emptyFieldsBody : RunCreateStateless := mkReviewBody [] [] (.str "")

def nonMappingBody : RunCreateStateless :=
  { agent_id := none, input := .nonMapping, model := "gpt-4o", metadata := none,
    route := "/api/v1/runs" }

def notJsonBody : RunCreateStateless :=
  { agent_id := none
    input := .mapping [("messages", [⟨"user", .notJson "terraform plan output"⟩])]
    model := "gpt-4o"
    metadata := none
    route := "/api/v1/runs" }

def emptyAgentBody : RunCreateStateless :=
  { agent_id := some ""
    input := .mapping [("messages", [⟨"user", .jsonVal (reviewRequestJson [] [] (.str "w"))⟩])]
    model := "gpt-4o"
    metadata := none
    route := "/api/v1/runs" }

def scenarioChange : JDict :=
  [("filename", .str "x.tf"), ("start_line", .num 1),
   ("changed_code", .str "+ acl = \"public-read\""), ("status", .str "added")]

def scenarioCtxFile : JDict := [("path", .str "x.tf"), ("content", .str "...")]

def emptyMessagesBody : RunCreateStateless :=
  { agent_id := none, input := .mapping [("messages", [])], model := "gpt-4o",
    metadata := none, route := "/api/v1/runs" }

theorem fromHexDigit_hexDigitChar (n : Nat) (h : n < 16) :
    fromHexDigit (hexDigitChar n) = some n := by
  interval_cases n <;> decide

theorem parseHex4_toHex4 (n : Nat) (h : n < 65536) :
    parseHex4 (hexDigitChar (n / 4096 % 16)) (hexDigitChar (n / 256 % 16))
      (hexDigitChar (n / 16 % 16)) (hexDigitChar (n % 16)) = some n := by
  rw [parseHex4]
  rw [fromHexDigit_hexDigitChar _ (Nat.mod_lt _ (by norm_num)),
      fromHexDigit_hexDigitChar _ (Nat.mod_lt _ (by norm_num)),
      fromHexDigit_hexDigitChar _ (Nat.mod_lt _ (by norm_num)),
      fromHexDigit_hexDigitChar _ (Nat.mod_lt _ (by norm_num))]
  show some _ = some _
  congr 1
  omega

theorem char_valid_nat (c : Char) :
    c.toNat < 0xD800 ∨ (0xDFFF < c.toNat ∧ c.toNat < 0x110000) := c.valid

theorem decodeU_toHex4 (v : Nat) (h : v < 0x10000) (tail : List Char) :
    decodeU (toHex4 v ++ tail) = decodeUVal v tail := by
  simp only [toHex4, List.cons_append, List.nil_append, decodeU]
  rw [parseHex4_toHex4 _ h, Option.some_bind]

theorem unescape1_u (l : List Char) : unescape1 ('u' :: l) = decodeU l := by
  rw [unescape1]
  rw [if_neg (by decide), if_neg (by decide), if_neg (by decide), if_neg (by decide),
      if_neg (by decide), if_neg (by decide), if_neg (by decide), if_neg (by decide),
      if_pos rfl]

theorem unescape1_escapeChar_bmp (c : Char) (h9 : c.toNat < 0x10000)
    (hns : ¬(0xD800 ≤ c.toNat ∧ c.toNat < 0xE000)) (tail : List Char) :
    unescape1 ('u' :: (toHex4 c.toNat ++ tail)) = some (c, tail) := by
  rw [unescape1_u, decodeU_toHex4 _ h9, decodeUVal]
  rw [if_neg (by omega), if_neg (by omega), Char.ofNat_toNat]

theorem unescape1_escapeChar_astral (c : Char) (h9 : 0x10000 ≤ c.toNat) (tail : List Char) :
    unescape1 ('u' :: (toHex4 (0xD800 + (c.toNat - 0x10000) / 0x400) ++
      ('\\' :: 'u' :: (toHex4 (0xDC00 + (c.toNat - 0x10000) % 0x400) ++ tail)))) =
      some (c, tail) := by
  have hv := char_valid_nat c
  have hq : (c.toNat - 0x10000) / 0x400 < 0x400 := by omega
  have hr : (c.toNat - 0x10000) % 0x400 < 0x400 := Nat.mod_lt _ (by norm_num)
  rw [unescape1_u, decodeU_toHex4 _ (by omega)]
  rw [decodeUVal, if_pos (by omega)]
  simp only [toHex4, List.cons_append, List.nil_append]
  simp only [decodeLowSurrogate]
  rw [if_pos (⟨trivial, trivial⟩ : True ∧ True)]
  rw [parseHex4_toHex4 _ (by omega), Option.some_bind]
  rw [if_pos (by omega)]
  have hval : 0x10000 + (0xD800 + (c.toNat - 0x10000) / 0x400 - 0xD800) * 0x400 +
      (0xDC00 + (c.toNat - 0x10000) % 0x400 - 0xDC00) = c.toNat := by omega
  rw [hval, Char.ofNat_toNat]

theorem parseStringBody_esc (f : Nat) (l : List Char) (ch : Char) (rest2 : List Char)
    (h : unescape1 l = some (ch, rest2)) :
    parseStringBody (f + 1) ('\\' :: l) =
      (parseStringBody f rest2).map (pcons ch) := by
  rw [parseStringBody, if_neg (by decide), if_pos rfl, h]

theorem parseStringBody_escapeList (s : List Char) (rest : List Char) (fuel : Nat)
    (hf : s.length + 1 ≤ fuel) :
    parseStringBody fuel (escapeList s ++ '"' :: rest) = some (s, rest) := by
  induction s generalizing fuel with
  | nil =>
    obtain ⟨f, rfl⟩ : ∃ f, fuel = f + 1 := ⟨fuel - 1, by omega⟩
    rfl
  | cons c cs ih =>
    obtain ⟨f, rfl⟩ : ∃ f, fuel = f + 1 := ⟨fuel - 1, by omega⟩
    have hff : cs.length + 1 ≤ f := by simpa using hf
    have hv := char_valid_nat c
    rw [escapeList, List.append_assoc]
    unfold escapeChar
    split_ifs with h1 h2 h3 h4 h5 h6 h7 h8 h9
    · subst h1; simp [parseStringBody, unescape1, ih _ hff, pcons]
    · subst h2; simp [parseStringBody, unescape1, ih _ hff, pcons]
    · subst h3; simp [parseStringBody, unescape1, ih _ hff, pcons]
    · subst h4; simp [parseStringBody, unescape1, ih _ hff, pcons]
    · subst h5; simp [parseStringBody, unescape1, ih _ hff, pcons]
    · subst h6; simp [parseStringBody, unescape1, ih _ hff, pcons]
    · subst h7; simp [parseStringBody, unescape1, ih _ hff, pcons]
    · show parseStringBody (f + 1) (c :: (escapeList cs ++ '"' :: rest)) = some (c :: cs, rest)
      rw [parseStringBody, if_neg h1, if_neg h2, ih _ hff]
      rfl
    · simp only [List.cons_append]
      rw [parseStringBody_esc _ _ _ _ (unescape1_escapeChar_bmp c h9 (by omega) _)]
      rw [ih _ hff]
      rfl
    · simp only [List.cons_append, List.append_assoc]
      rw [parseStringBody_esc _ _ _ _ (unescape1_escapeChar_astral c (by omega) _)]
      rw [ih _ hff]
      rfl

theorem natDigitsAux_eq (n : Nat) : ∀ fuel, n < fuel → natDigitsAux fuel n = natDigits n := by
  induction n using Nat.strong_induction_on with
  | _ n ih =>
    intro fuel hfuel
    obtain ⟨f, rfl⟩ : ∃ f, fuel = f + 1 := ⟨fuel - 1, by omega⟩
    rw [natDigits, natDigitsAux, natDigitsAux]
    split_ifs with h
    · rfl
    · have hlt : n / 10 < n := Nat.div_lt_self (by omega) (by norm_num)
      rw [ih (n / 10) hlt f (by omega), ih (n / 10) hlt n (by omega)]

theorem natDigits_eq (n : Nat) :
    natDigits n = if n < 10 then [Char.ofNat (48 + n)]
      else natDigits (n / 10) ++ [Char.ofNat (48 + n % 10)] := by
  conv_lhs => rw [natDigits, natDigitsAux]
  split_ifs with h
  · rfl
  · rw [natDigitsAux_eq (n / 10) n (Nat.div_lt_self (by omega) (by norm_num))]

theorem toNat_ofNat_digit (n : Nat) (h : n < 10) : (Char.ofNat (48 + n)).toNat = 48 + n := by
  interval_cases n <;> decide

theorem natDigits_digit (n : Nat) : ∀ c ∈ natDigits n, isDigitChar c = true := by
  induction n using Nat.strong_induction_on with
  | _ n ih =>
    rw [natDigits_eq]
    split_ifs with h
    · intro c hc
      simp only [List.mem_singleton] at hc
      subst hc
      simp only [isDigitChar, toNat_ofNat_digit n h]
      simp only [Bool.and_eq_true, decide_eq_true_eq]
      omega
    · intro c hc
      rw [List.mem_append] at hc
      rcases hc with hc | hc
      · exact ih (n / 10) (Nat.div_lt_self (by omega) (by norm_num)) c hc
      · simp only [List.mem_singleton] at hc
        subst hc
        rw [isDigitChar, toNat_ofNat_digit (n % 10) (Nat.mod_lt _ (by norm_num))]
        simp only [Bool.and_eq_true, decide_eq_true_eq]
        omega

theorem natDigits_ne_nil (n : Nat) : natDigits n ≠ [] := by
  rw [natDigits_eq]
  split_ifs with h <;> simp

theorem parseDigits_append (ds : List Char) (rest : List Char)
    (hds : ∀ c ∈ ds, isDigitChar c = true) (hrest : noDigitHead rest) :
    parseDigits (ds ++ rest) = (ds, rest) := by
  induction ds with
  | nil =>
    simp only [List.nil_append]
    cases rest with
    | nil => rfl
    | cons c cs =>
      rw [parseDigits]
      simp only [noDigitHead] at hrest
      rw [if_neg (by simp [hrest])]
  | cons c cs ih =>
    rw [List.cons_append, parseDigits]
    rw [if_pos (hds c (by simp))]
    rw [ih (fun x hx => hds x (by simp [hx]))]

theorem digitsToNat_natDigits_aux (n : Nat) :
    ∀ acc, (natDigits n).foldl (fun a c => 10 * a + (c.toNat - 48)) acc =
      acc * 10 ^ (natDigits n).length + n := by
  induction n using Nat.strong_induction_on with
  | _ n ih =>
    intro acc
    rw [natDigits_eq]
    split_ifs with h
    · simp only [List.foldl_cons, List.foldl_nil, List.length_singleton, pow_one]
      rw [toNat_ofNat_digit n h]
      omega
    · rw [List.foldl_append]
      rw [ih (n / 10) (Nat.div_lt_self (by omega) (by norm_num))]
      simp only [List.foldl_cons, List.foldl_nil, List.length_append, List.length_singleton]
      rw [toNat_ofNat_digit (n % 10) (Nat.mod_lt _ (by norm_num))]
      rw [pow_succ]
      have h2 : 10 * (n / 10) + (48 + n % 10 - 48) = n := by omega
      calc 10 * (acc * 10 ^ (natDigits (n / 10)).length + n / 10) + (48 + n % 10 - 48)
          = acc * (10 ^ (natDigits (n / 10)).length * 10) + (10 * (n / 10) + (48 + n % 10 - 48)) := by
            ring
        _ = acc * (10 ^ (natDigits (n / 10)).length * 10) + n := by rw [h2]

theorem digitsToNat_natDigits (n : Nat) : digitsToNat (natDigits n) = n := by
  rw [digitsToNat, digitsToNat_natDigits_aux n 0]
  simp

theorem parseNat_natDigits (n : Nat) (rest : List Char) (hrest : noDigitHead rest) :
    parseNat (natDigits n ++ rest) = some (n, rest) := by
  rw [parseNat]
  simp only [parseDigits_append _ _ (natDigits_digit n) hrest]
  rw [if_neg (natDigits_ne_nil n), digitsToNat_natDigits]

theorem natDigits_head_not_minus (n : Nat) (c : Char) (cs : List Char)
    (h : natDigits n = c :: cs) : ¬c = '-' := by
  intro hc
  subst hc
  have := natDigits_digit n '-' (by rw [h]; simp)
  simp [isDigitChar] at this

theorem parseIntJson_dumpInt (i : Int) (rest : List Char) (hrest : noDigitHead rest) :
    parseIntJson (dumpInt i ++ rest) = some (i, rest) := by
  rw [dumpInt]
  split_ifs with h
  · rw [List.cons_append, parseIntJson]
    rw [if_pos rfl, parseNat_natDigits _ _ hrest]
    simp only [Option.map_some']
    congr 2
    omega
  · have key : parseNat (natDigits i.toNat ++ rest) = some (i.toNat, rest) :=
      parseNat_natDigits _ _ hrest
    rcases hd2 : natDigits i.toNat with _ | ⟨c, cs⟩
    · exact absurd hd2 (natDigits_ne_nil _)
    · rw [hd2] at key
      rw [List.cons_append, parseIntJson]
      rw [if_neg (natDigits_head_not_minus _ _ _ hd2)]
      rw [← List.cons_append, key]
      simp only [Option.map_some']
      congr 2
      omega

theorem expectChars_append (pat : List Char) (rest : List Char) :
    expectChars pat (pat ++ rest) = some rest := by
  induction pat with
  | nil => rfl
  | cons p ps ih =>
    rw [List.cons_append, expectChars, if_pos rfl, ih]

theorem escapeList_length (s : List Char) : s.length ≤ (escapeList s).length := by
  induction s with
  | nil => simp [escapeList]
  | cons c cs ih =>
    rw [escapeList, List.length_append, List.length_cons]
    have h1 : 1 ≤ (escapeChar c).length := by
      rw [escapeChar]
      split_ifs <;> simp [toHex4]
    omega

theorem parseJString_dumpStr (s : String) (rest : List Char) :
    parseJString (dumpStr s ++ rest) = some (s.toList, rest) := by
  rw [dumpStr, List.cons_append, parseJString, if_pos rfl]
  simp only [List.append_assoc, List.cons_append, List.nil_append]
  rw [parseStringBody_escapeList]
  have h1 := escapeList_length s.toList
  simp only [List.length_append, List.length_cons]
  omega

theorem string_mk_toList (s : String) : String.mk s.toList = s := rfl

theorem noDigitHead_litComment (x : List Char) : noDigitHead (litComment ++ x) := by
  rw [litComment, List.cons_append]
  exact rfl

theorem parseComment_dumpComment (c : ReviewComment) (rest : List Char) :
    parseComment (dumpComment c ++ rest) = some (c, rest) := by
  rw [dumpComment]
  simp only [List.append_assoc]
  rw [parseComment]
  rw [expectChars_append]
  simp only [Option.some_bind]
  rw [parseJString_dumpStr]
  simp only [Option.some_bind]
  rw [expectChars_append]
  simp only [Option.some_bind]
  rw [parseIntJson_dumpInt _ _ (noDigitHead_litComment _)]
  simp only [Option.some_bind]
  rw [expectChars_append]
  simp only [Option.some_bind]
  rw [parseJString_dumpStr]
  simp only [Option.some_bind]
  rw [expectChars_append]
  simp only [Option.some_bind]
  rw [parseJString_dumpStr]
  simp only [Option.some_bind]
  rw [expectChars_append]
  simp only [Option.some_bind]
  rw [string_mk_toList, string_mk_toList, string_mk_toList]

theorem dumpComment_length (c : ReviewComment) : 1 ≤ (dumpComment c).length := by
  rw [dumpComment, litObjOpen]
  simp

theorem dumpItems_length (cs : List ReviewComment) : cs.length ≤ (dumpItems cs).length := by
  induction cs with
  | nil => simp [dumpItems]
  | cons c cs ih =>
    cases cs with
    | nil =>
      rw [dumpItems]
      have := dumpComment_length c
      simpa using this
    | cons c2 cs2 =>
      rw [dumpItems]
      have h1 := dumpComment_length c
      simp only [List.length_append, List.length_cons] at *
      omega

theorem dumpComment_head (c : ReviewComment) (x : List Char) :
    dumpComment c ++ x = '{' :: (litObjOpen.tail ++ dumpStr c.filename ++
      litLineNumber ++ dumpInt c.line_number ++ litComment ++ dumpStr c.comment ++
      litStatus ++ dumpStr c.status ++ ['}'] ++ x) := by
  rw [dumpComment, litObjOpen]
  simp [List.append_assoc]

theorem dumpItems_cons_head (c : ReviewComment) (cs : List ReviewComment) (x : List Char) :
    ∃ t, dumpItems (c :: cs) ++ x = '{' :: t := by
  cases cs with
  | nil => rw [dumpItems, dumpComment_head]; exact ⟨_, rfl⟩
  | cons c2 cs2 =>
    rw [dumpItems]
    simp only [List.append_assoc, List.cons_append]
    rw [dumpComment_head]
    exact ⟨_, rfl⟩

theorem parseCommentsAux_dumpItems (cs : List ReviewComment) (hne : cs ≠ [])
    (rest : List Char) (fuel : Nat) (hf : cs.length ≤ fuel) :
    parseCommentsAux fuel (dumpItems cs ++ ']' :: rest) = some (cs, rest) := by
  induction cs generalizing fuel with
  | nil => exact absurd rfl hne
  | cons c cs ih =>
    have hf2 : cs.length + 1 ≤ fuel := by simpa using hf
    obtain ⟨f, rfl⟩ : ∃ f, fuel = f + 1 := ⟨fuel - 1, by omega⟩
    cases cs with
    | nil =>
      rw [dumpItems, parseCommentsAux, parseComment_dumpComment]
      simp only [Option.some_bind]
      simp
    | cons c2 cs2 =>
      rw [dumpItems]
      simp only [List.append_assoc, List.cons_append]
      rw [parseCommentsAux, parseComment_dumpComment]
      simp only [Option.some_bind, reduceIte]
      rw [ih (by simp) f (by simp only [List.length_cons] at hf2 ⊢; omega)]
      rfl

theorem parseComments_dumpComments (cs : List ReviewComment) (rest : List Char) :
    parseComments (dumpComments cs ++ rest) = some (cs, rest) := by
  rw [dumpComments, List.cons_append, parseComments, if_pos rfl]
  simp only [List.append_assoc, List.cons_append, List.nil_append]
  cases cs with
  | nil => rfl
  | cons c cs2 =>
    have hlen : (c :: cs2).length ≤ (dumpItems (c :: cs2) ++ ']' :: rest).length := by
      have h2 := dumpItems_length (c :: cs2)
      simp only [List.length_append, List.length_cons] at h2 ⊢
      omega
    obtain ⟨t, ht⟩ := dumpItems_cons_head c cs2 (']' :: rest)
    rw [ht, parseCommentsBody, if_neg (by decide), ← ht]
    exact parseCommentsAux_dumpItems _ (by simp) _ _ hlen

theorem jsonLoadsComments_dump (cs : List ReviewComment) :
    jsonLoadsComments (String.mk (dumpComments cs)) = some cs := by
  rw [jsonLoadsComments]
  have h : (String.mk (dumpComments cs)).toList = dumpComments cs ++ [] := by
    simp [String.toList]
  rw [h, parseComments_dumpComments]

/-- Any string occurs in itself. -/
theorem strOccurs_self (s : String) : strOccurs s s := ⟨[], [], by simp⟩

/-- The comprehension guard is List.filter. -/
theorem filterComments_eq_filter (cs : List ReviewComment) :
    filterComments cs = cs.filter (fun c => c.line_number != 0) := by
  induction cs with
  | nil => rfl
  | cons c cs ih =>
    rw [filterComments, List.filter_cons]
    by_cases h : c.line_number != 0
    · rw [if_pos h, if_pos h, ih]
    · rw [if_neg h, if_neg h, ih]

/-- A list of line-0 comments filters to the empty list. -/
theorem filterComments_all_zero (cs : List ReviewComment)
    (h : ∀ c ∈ cs, c.line_number = 0) : filterComments cs = [] := by
  induction cs with
  | nil => rfl
  | cons c cs ih =>
    rw [filterComments, if_neg (by simp [h c (by simp)])]
    exact ih (fun x hx => h x (by simp [hx]))

/-- Validating a list of JSON objects succeeds with the underlying dicts. -/
theorem validateDictList_map_obj (xs : List JDict) :
    validateDictList (xs.map Json.obj) = some xs := by
  induction xs with
  | nil => rfl
  | cons x xs ih =>
    rw [List.map_cons, validateDictList]
    simp only [validateDict, ih, Option.map_some']

/-- The encoder always puts the serialized filtered comments into
output.messages[0].content. -/
theorem extractFirstContent_encode (body : RunCreateStateless) (issues : List ReviewComment) :
    extractFirstContent (encodeReviewResponse body issues) =
      some (String.mk (dumpComments (filterComments issues))) := rfl

/-- C1: round-trip through the response filter and encoder. For every list of
ReviewComment values and every request body, filtering and encoding, then
extracting output.messages[0].content from the response envelope and
JSON-parsing that string, yields exactly the comments whose line_number is
not 0 in their original relative order; when every comment has
line_number == 0 the encoded message content is the string "[]". -/
theorem C1_roundtrip_filter_encode (body : RunCreateStateless) (issues : List ReviewComment) :
    ((extractFirstContent (encodeReviewResponse body issues)).bind jsonLoadsComments =
      some (issues.filter (fun c => c.line_number != 0))) ∧
    ((∀ c ∈ issues, c.line_number = 0) →
      extractFirstContent (encodeReviewResponse body issues) = some "[]") := by
  constructor
  · rw [extractFirstContent_encode, Option.some_bind, jsonLoadsComments_dump,
        filterComments_eq_filter]
  · intro h
    rw [extractFirstContent_encode, filterComments_all_zero issues h]
    rfl

/-- C1 witness: the all-degenerate scenario from the spec. The LLM returns a
single comment anchored at line 0; the encoded message content is "[]". -/
theorem C1_witness :
    extractFirstContent (encodeReviewResponse testBody
      [⟨"x.tf", 0, "irrelevant", "added"⟩]) = some "[]" :=
  (C1_roundtrip_filter_encode testBody [⟨"x.tf", 0, "irrelevant", "added"⟩]).2 (by decide)

/-- C2: the review response filter keeps exactly the comments whose
line_number != 0, as a sublist of the input (so order is preserved and the
kept comments are unchanged). -/
theorem C2_filter_exact (cs : List ReviewComment) :
    filterComments cs = cs.filter (fun c => c.line_number != 0) ∧
    List.Sublist (filterComments cs) cs ∧
    (∀ c, c ∈ filterComments cs ↔ c ∈ cs ∧ c.line_number ≠ 0) := by
  refine ⟨filterComments_eq_filter cs, ?_, ?_⟩
  · rw [filterComments_eq_filter]
    exact List.filter_sublist cs
  · intro c
    rw [filterComments_eq_filter, List.mem_filter]
    simp

/-- C9: the review response filter is idempotent. -/
theorem C9_filter_idempotent (cs : List ReviewComment) :
    filterComments (filterComments cs) = filterComments cs := by
  rw [filterComments_eq_filter, filterComments_eq_filter, List.filter_filter]
  congr 1
  funext c
  rw [Bool.and_self]

/-- C3 counterexample: a decoded ReviewRequest whose context_files, changes
and static_analyzer_output are all empty is NOT rejected with 422: the
handler invokes the LLM chain and returns its encoded output. -/
theorem C3_counterexample :
    run_stateless_runs_post constChain1 emptyFieldsBody =
      .ok (encodeReviewResponse emptyFieldsBody [⟨"s.tf", 4, "hard-coded acl", "added"⟩]) := rfl

/-- C3 amended: in this revision the emptiness check is commented out, so a
request whose context_files, changes or static_analyzer_output is empty is
passed through to the LLM capability: for every chain the handler returns
the encoded chain output instead of an UnprocessableEntity error. -/
theorem C3_amended_empty_passes_through (body : RunCreateStateless) (rr : ReviewRequest)
    (sao : String) (h1 : decodeAndValidate body = .ok rr)
    (h2 : rr.context_files = [] ∨ rr.changes = [] ∨ sao = "")
    (h3 : rr.static_analyzer_output = some sao) :
    ∀ chain, run_stateless_runs_post chain body =
      .ok (encodeReviewResponse body
        (chain (getModelDumpWithMetadata ⟨rr.context_files, rr.changes, [sao]⟩)).issues) := by
  intro chain
  rw [run_stateless_runs_post, h1]
  simp only [saoAsList, h3]

/-- C3 witness: the amended pass-through theorem applied to the concrete
all-empty request. -/
theorem C3_witness :
    run_stateless_runs_post constChain1 emptyFieldsBody =
      .ok (encodeReviewResponse emptyFieldsBody
        (constChain1 (getModelDumpWithMetadata ⟨[], [], [""]⟩)).issues) :=
  C3_amended_empty_passes_through emptyFieldsBody ⟨[], [], some ""⟩ "" rfl
    (Or.inl rfl) rfl constChain1

/-- C4: an envelope whose input is not a mapping, or lacks the key
"messages", fails with the 422 MalformedInput error, for every chain (so no
LLM invocation can influence the outcome). -/
theorem C4_malformed_input_422 (body : RunCreateStateless)
    (h : body.input = .nonMapping ∨
      ∃ m, body.input = .mapping m ∧ alookup "messages" m = none) :
    ∀ chain, run_stateless_runs_post chain body = .error ⟨422, malformedInputDetail⟩ := by
  intro chain
  have hin : inputMessages body.input = none := by
    rcases h with h | ⟨m, hm, hl⟩
    · rw [h]; rfl
    · rw [hm, inputMessages, hl]
  rw [run_stateless_runs_post, decodeAndValidate, hin]

/-- C4 witness: the theorem applied to a concrete envelope whose input is
not a mapping. -/
theorem C4_witness :
    run_stateless_runs_post constChain1 nonMappingBody =
      .error ⟨422, malformedInputDetail⟩ :=
  C4_malformed_input_422 nonMappingBody (Or.inl rfl) constChain1

/-- C5 counterexample: a first message whose content is not valid JSON is
answered with HTTP 500 (json.loads raises outside the inner try, so the
generic handler catches it), not with the 422 the claim asserts. -/
theorem C5_counterexample :
    run_stateless_runs_post constChain1 notJsonBody =
      .error ⟨500, jsonDecodeErrorDetail "terraform plan output"⟩ := rfl

/-- C5 amended: content that is valid JSON but fails ReviewRequest
validation is answered with 422 and the detail string embeds the validation
error; content that is not valid JSON is answered with HTTP 500 through the
generic unexpected-error branch, not 422. -/
theorem C5_amended_invalid_json_500_schema_422 (body : RunCreateStateless)
    (first : Message) (tl : List Message)
    (h1 : inputMessages body.input = some (first :: tl)) :
    (∀ raw, first.content = .notJson raw →
      ∀ chain, run_stateless_runs_post chain body =
        .error ⟨500, jsonDecodeErrorDetail raw⟩) ∧
    (∀ j e, first.content = .jsonVal j → reviewRequestModelValidate j = .error e →
      ∀ chain, run_stateless_runs_post chain body =
        .error ⟨422, "Validation failed: " ++ e⟩) := by
  constructor
  · intro raw hraw chain
    rw [run_stateless_runs_post, decodeAndValidate, h1]
    simp only [hraw]
  · intro j e hj he chain
    rw [run_stateless_runs_post, decodeAndValidate, h1]
    simp only [hj, he]

/-- C5 witness: the amended theorem applied to a non-JSON content message
and to a schema-mismatching JSON content message. -/
theorem C5_witness :
    run_stateless_runs_post constChain1 notJsonBody =
      .error ⟨500, jsonDecodeErrorDetail "terraform plan output"⟩ ∧
    run_stateless_runs_post constChain1
      { agent_id := none
        input := .mapping [("messages", [⟨"user", .jsonVal (.num 3)⟩])]
        model := "gpt-4o", metadata := none, route := "/api/v1/runs" } =
      .error ⟨422, "Validation failed: " ++ "Input should be a valid dictionary"⟩ :=
  ⟨(C5_amended_invalid_json_500_schema_422 notJsonBody
      ⟨"user", .notJson "terraform plan output"⟩ [] rfl).1
      "terraform plan output" rfl constChain1,
   (C5_amended_invalid_json_500_schema_422
      { agent_id := none
        input := .mapping [("messages", [⟨"user", .jsonVal (.num 3)⟩])]
        model := "gpt-4o", metadata := none, route := "/api/v1/runs" }
      ⟨"user", .jsonVal (.num 3)⟩ [] rfl).2 (.num 3)
      "Input should be a valid dictionary" rfl rfl constChain1⟩

/-- C6 counterexample: a well-formed envelope whose embedded
static_analyzer_output is a list of free text is rejected by validation
(the model field is Optional[str]), so decode followed by validate fails
instead of succeeding as the claim asserts. -/
theorem C6_counterexample :
    decodeAndValidate (mkReviewBody [[("path", .str "x.tf")]]
      [[("status", .str "added")]] (.arr [.str "Warning: public bucket"])) =
      .error ⟨422, "Validation failed: " ++
        "static_analyzer_output: Input should be a valid string"⟩ := rfl

/-- C6 amended: for every envelope embedding context_files and a single
added or removed change as JSON objects and a non-empty free-text (string)
static_analyzer_output, decode followed by validation succeeds and returns
the ReviewRequest whose fields equal the embedded values. -/
theorem C6_amended_decode_validate_ok (ctx chg : List JDict) (sao : String) (c : JDict)
    (hchg : chg = [c])
    (hstatus : alookup "status" c = some (.str "added") ∨
      alookup "status" c = some (.str "removed"))
    (hsao : sao ≠ "") :
    decodeAndValidate (mkReviewBody ctx chg (.str sao)) = .ok ⟨ctx, chg, some sao⟩ := by
  rw [decodeAndValidate, mkReviewBody]
  simp only [inputMessages, alookup, String.reduceEq, reduceIte, reviewRequestJson,
    reviewRequestModelValidate, validateListDict, validateDictList_map_obj, validateOptStr]

/-- C6 witness: the amended theorem applied to a concrete envelope with one
added change and the analyzer warning as a string. -/
theorem C6_witness :
    decodeAndValidate (mkReviewBody [[("path", .str "x.tf")]]
      [[("status", .str "added")]] (.str "Warning: public bucket")) =
      .ok ⟨[[("path", .str "x.tf")]], [[("status", .str "added")]],
        some "Warning: public bucket"⟩ :=
  C6_amended_decode_validate_ok [[("path", .str "x.tf")]] [[("status", .str "added")]]
    "Warning: public bucket" [("status", .str "added")] rfl (Or.inl rfl) (by decide)

/-- C7 counterexample: a successfully processed request whose agent_id is
present but the empty string is answered with agent_id "default-agent", not
with its own agent_id echoed back, because the code uses Python's falsy
`or` instead of a None test. -/
theorem C7_counterexample :
    emptyAgentBody.agent_id = some "" ∧
    run_stateless_runs_post constChain1 emptyAgentBody =
      .ok (encodeReviewResponse emptyAgentBody [⟨"s.tf", 4, "hard-coded acl", "added"⟩]) ∧
    (encodeReviewResponse emptyAgentBody [⟨"s.tf", 4, "hard-coded acl", "added"⟩]).agent_id =
      "default-agent" :=
  ⟨rfl, rfl, rfl⟩

/-- C7 amended: the encode step is total; it wraps the filtered comment list
as JSON text inside exactly one assistant-role message; agent_id defaults to
"default-agent" when absent or empty and is echoed otherwise; model defaults
to "gpt-4o" when empty (it is a required field of the /runs schema, so it
cannot be absent) and is echoed otherwise. -/
theorem C7_amended_encode_defaults (body : RunCreateStateless) (issues : List ReviewComment) :
    ((encodeReviewResponse body issues).output =
      [("messages", [AssistantMessage.mk "assistant"
        (String.mk (dumpComments (filterComments issues)))])]) ∧
    ((body.agent_id = none ∨ body.agent_id = some "") →
      (encodeReviewResponse body issues).agent_id = "default-agent") ∧
    (∀ s, body.agent_id = some s → s ≠ "" →
      (encodeReviewResponse body issues).agent_id = s) ∧
    (body.model = "" → (encodeReviewResponse body issues).model = "gpt-4o") ∧
    (body.model ≠ "" → (encodeReviewResponse body issues).model = body.model) := by
  refine ⟨rfl, ?_, ?_, ?_, ?_⟩
  · rintro (h | h) <;> simp [encodeReviewResponse, pyOrOptStr, h]
  · intro s hs hne
    simp [encodeReviewResponse, pyOrOptStr, hs, hne]
  · intro h
    simp [encodeReviewResponse, pyOrStr, h]
  · intro h
    simp [encodeReviewResponse, pyOrStr, h]

/-- C7 witness: defaults applied for an absent agent_id and echo for a
non-empty one. -/
theorem C7_witness :
    (encodeReviewResponse nonMappingBody []).agent_id = "default-agent" ∧
    (encodeReviewResponse testBody []).agent_id = "test-agent" ∧
    (encodeReviewResponse testBody []).model = "gpt-4" :=
  ⟨(C7_amended_encode_defaults nonMappingBody []).2.1 (Or.inl rfl),
   (C7_amended_encode_defaults testBody []).2.2.1 "test-agent" rfl (by decide),
   (C7_amended_encode_defaults testBody []).2.2.2.2 (by decide)⟩

/-- C8 counterexample: the claim's scenario carries static_analyzer_output
as a list of free text; such a request fails ReviewRequest validation with
422, so no prompt payload is ever assembled for it. -/
theorem C8_counterexample :
    run_stateless_runs_post constChain1
      (mkReviewBody [scenarioCtxFile] [scenarioChange]
        (.arr [.str "Warning: public bucket"])) =
      .error ⟨422, "Validation failed: " ++
        "static_analyzer_output: Input should be a valid string"⟩ := rfl

/-- C8 amended: for every validated ReviewRequest (whose
static_analyzer_output is necessarily a string), the assembled prompt
payload embeds context_files, changes (including each change's added or
removed status) and the analyzer output verbatim; in the claim's scenario
with the analyzer output as the string "Warning: public bucket", the
payload literally contains "x.tf", "added" and the analyzer string. -/
theorem C8_amended_payload_fidelity (rr : ReviewRequest) (sao : String)
    (h : rr.static_analyzer_output = some sao) :
    (alookup "files" (getModelDumpWithMetadata ⟨rr.context_files, rr.changes, [sao]⟩) =
      some [("filesvalue", Json.arr (rr.context_files.map Json.obj)),
            ("files_description", Json.str filesDescription)]) ∧
    (alookup "changes" (getModelDumpWithMetadata ⟨rr.context_files, rr.changes, [sao]⟩) =
      some [("changesvalue", Json.arr (rr.changes.map Json.obj)),
            ("changes_description", Json.str changesDescription)]) ∧
    (alookup "static_analyzer_output"
        (getModelDumpWithMetadata ⟨rr.context_files, rr.changes, [sao]⟩) =
      some [("static_analyzer_outputvalue", Json.arr [Json.str sao]),
            ("static_analyzer_output_description", Json.str staticAnalyzerOutputDescription)]) ∧
    (payloadHasString (getModelDumpWithMetadata
        ⟨[scenarioCtxFile], [scenarioChange], ["Warning: public bucket"]⟩) "x.tf" ∧
     payloadHasString (getModelDumpWithMetadata
        ⟨[scenarioCtxFile], [scenarioChange], ["Warning: public bucket"]⟩) "added" ∧
     payloadHasString (getModelDumpWithMetadata
        ⟨[scenarioCtxFile], [scenarioChange], ["Warning: public bucket"]⟩)
       "Warning: public bucket") := by
  refine ⟨rfl, rfl, rfl, ?_, ?_, ?_⟩
  · refine ⟨("changes",
      [("changesvalue", Json.arr ([scenarioChange].map Json.obj)),
       ("changes_description", Json.str changesDescription)]), by simp [getModelDumpWithMetadata], ?_⟩
    refine Json.HasString.obj_val (k := "changesvalue")
      (v := Json.arr ([scenarioChange].map Json.obj)) (by simp) ?_
    refine Json.HasString.in_arr (j := Json.obj scenarioChange) (by simp) ?_
    refine Json.HasString.obj_val (k := "filename") (v := Json.str "x.tf")
      (by simp [scenarioChange]) ?_
    exact Json.HasString.str_leaf _ (strOccurs_self "x.tf")
  · refine ⟨("changes",
      [("changesvalue", Json.arr ([scenarioChange].map Json.obj)),
       ("changes_description", Json.str changesDescription)]), by simp [getModelDumpWithMetadata], ?_⟩
    refine Json.HasString.obj_val (k := "changesvalue")
      (v := Json.arr ([scenarioChange].map Json.obj)) (by simp) ?_
    refine Json.HasString.in_arr (j := Json.obj scenarioChange) (by simp) ?_
    refine Json.HasString.obj_val (k := "status") (v := Json.str "added")
      (by simp [scenarioChange]) ?_
    exact Json.HasString.str_leaf _ (strOccurs_self "added")
  · refine ⟨("static_analyzer_output",
      [("static_analyzer_outputvalue", Json.arr ([Json.str "Warning: public bucket"])),
       ("static_analyzer_output_description", Json.str staticAnalyzerOutputDescription)]),
      by simp [getModelDumpWithMetadata], ?_⟩
    refine Json.HasString.obj_val (k := "static_analyzer_outputvalue")
      (v := Json.arr [Json.str "Warning: public bucket"]) (by simp) ?_
    refine Json.HasString.in_arr (j := Json.str "Warning: public bucket") (by simp) ?_
    exact Json.HasString.str_leaf _ (strOccurs_self "Warning: public bucket")

/-- C8 witness: the fidelity theorem applied to the scenario request itself. -/
theorem C8_witness :
    alookup "changes" (getModelDumpWithMetadata
      ⟨[scenarioCtxFile], [scenarioChange], ["Warning: public bucket"]⟩) =
      some [("changesvalue", Json.arr ([scenarioChange].map Json.obj)),
            ("changes_description", Json.str changesDescription)] :=
  (C8_amended_payload_fidelity ⟨[scenarioCtxFile], [scenarioChange],
    some "Warning: public bucket"⟩ "Warning: public bucket" rfl).2.1

/-- C10: an envelope whose input maps "messages" to an empty list makes the
handler index messages[0] without a length check; the IndexError is caught
by the generic branch and surfaces as HTTP 500, not 422, for every chain. -/
theorem C10_empty_messages_500 (body : RunCreateStateless)
    (m : List (String × List Message))
    (h1 : body.input = .mapping m) (h2 : alookup "messages" m = some []) :
    ∀ chain, run_stateless_runs_post chain body = .error ⟨500, indexErrorDetail⟩ := by
  intro chain
  rw [run_stateless_runs_post, decodeAndValidate, h1, inputMessages, h2]

/-- C10 witness: the theorem applied to a concrete envelope with an empty
messages list. -/
theorem C10_witness :
    run_stateless_runs_post constChain1 emptyMessagesBody =
      .error ⟨500, indexErrorDetail⟩ :=
  C10_empty_messages_500 emptyMessagesBody [("messages", [])] rfl rfl constChain1
